import Mathlib

deriving instance DecidableEq for Except

/-!
Shallow embedding of the EAV-Django core (`src/eav/models.py` and
`src/eav/managers.py`): the schema/attribute data model, the save paths
(`BaseSchema._save_single_attr`, `BaseSchema._save_m2m_attr`), the dynamic
attribute read path (`BaseEntity.__getattr__`, `BaseEntity.get_schemata`)
and the query translator (`BaseEntityManager.filter/exclude/_filter_by_*`).

Python values are modelled by `Scalar` (atomic objects: None, strings,
integers, booleans, dates) and `Value` (an atomic object or a flat
list/tuple of atoms, which is all the repository's code paths ever build).
The attribute table is a `List AttrRow`; Django queryset calls
(`filter`, `get`, `delete`, `save`) are modelled as explicit list
operations, and raised Python exceptions as `Except PyErr`.
-/

namespace EavDjango

/-- An atomic Python value: `None`, a string, an int, a bool or a date
(dates abstracted to a number). -/
inductive Scalar
  | sNone
  | sStr (s : String)
  | sInt (n : Int)
  | sBool (b : Bool)
  | sDate (d : Nat)
deriving DecidableEq, Repr

/-- A Python value as used by this repository: an atom or a flat
list/tuple of atoms.  In Python 2 (the dialect of this code base) strings
do not have `__iter__`, so only `seq` counts as iterable for the
`hasattr(value, '__iter__')` test in `_save_m2m_attr`. -/
inductive Value
  | atom (a : Scalar)
  | seq (xs : List Scalar)
deriving DecidableEq, Repr

/-- Python truthiness of an atomic value (`if a.value:`): `None`, `False`,
`0`, and the empty string are falsy. -/
def Scalar.truthy : Scalar → Bool
  | .sNone => false
  | .sStr s => !s.isEmpty
  | .sInt n => decide (n ≠ 0)
  | .sBool b => b
  | .sDate _ => true

/-- Schema datatypes.  `BaseSchema` in `src/eav/models.py` enumerates
`TYPE_TEXT, TYPE_INTEGER ('int'), TYPE_DATE, TYPE_BOOLEAN, TYPE_MANY`.
Modelled from the spec: the constants `TYPE_RANGE` and `TYPE_ONE` are
dispatched on by `BaseEntityManager._filter_by_lookup` but are not defined
anywhere under `src/`; the spec treats range as an implied additional
datatype (with `value_range_min`/`value_range_max` storage slots) and
`one` as a choice datatype, so both are included here. -/
inductive Datatype
  | text
  | int
  | date
  | bool
  | many
  | range
  | one
deriving DecidableEq, Repr

/-- The string stored in `Schema.datatype` for each datatype constant
(used to build `'attrs__value_%s' % schema.datatype`). -/
def Datatype.pyName : Datatype → String
  | .text => "text"
  | .int => "int"
  | .date => "date"
  | .bool => "bool"
  | .many => "many"
  | .range => "range"
  | .one => "one"

/-- A schema row (`BaseSchema`): only the fields the embedded code paths
consult (`name` and `datatype`); schema identity is by this record, which
matches Django's FK comparison given the per-model uniqueness of names. -/
structure Schema where
  name : String
  datatype : Datatype
deriving DecidableEq, Repr

/-- A raised Python exception, with structured payloads in place of the
formatted message strings (the carried data is exactly what the `%`
interpolations of the source put into the message). -/
inductive PyErr
  | attributeError (objectName attrName : String)
  | nameError (attrName : String) (fields : List String) (schemataNames : List String)
  | valueError (msg : String)
  | typeError (msg : String)
  | multipleObjectsReturned
  | notImplementedError (msg : String)
deriving DecidableEq, Repr

/-- One row of the attribute table (`BaseAttribute` plus the concrete
`schema`/`choice` FKs of a subclass).  `entity_type` is fixed (one entity
model), so the entity reference is just `entity_id`.  `choice` holds the
nullable choice FK (`Scalar.sNone` = SQL NULL).  `phantom` stands for the
in-memory instance attributes (`value_many`, `value_range`, `value_one`)
that `_set_value`'s `setattr` creates for datatypes without a real column;
nothing ever reads it back. -/
structure AttrRow where
  entity_id : Nat
  schema : Schema
  choice : Scalar
  value_text : Value
  value_int : Value
  value_date : Value
  value_bool : Value
  phantom : Value
deriving DecidableEq, Repr

/-- `BaseAttribute._get_value`: datatype `many` reads `self.choice`;
text/int/date/bool read `getattr(self, 'value_%s' % datatype)`; for the
datatypes with no such column (`range`, `one`) the `getattr` on a freshly
fetched row raises `AttributeError`. -/
def AttrRow.getValue (r : AttrRow) : Except PyErr Value :=
  match r.schema.datatype with
  | .many => .ok (.atom r.choice)
  | .text => .ok r.value_text
  | .int => .ok r.value_int
  | .date => .ok r.value_date
  | .bool => .ok r.value_bool
  | .range => .error (.attributeError "Attr" "value_range")
  | .one => .error (.attributeError "Attr" "value_one")

/-- `BaseAttribute._set_value`: `setattr(self, 'value_%s' % datatype, v)`.
`setattr` always succeeds; for `many`/`range`/`one` it creates an
in-memory attribute, modelled by the write-only `phantom` field. -/
def AttrRow.setValue (r : AttrRow) (v : Value) : AttrRow :=
  match r.schema.datatype with
  | .text => { r with value_text := v }
  | .int => { r with value_int := v }
  | .date => { r with value_date := v }
  | .bool => { r with value_bool := v }
  | .many => { r with phantom := v }
  | .range => { r with phantom := v }
  | .one => { r with phantom := v }

/-- The entity/schema part of the row lookups built by
`get_entity_lookups(entity)` plus `schema=schema` (used by
`BaseSchema.get_attrs` through the schema-scoped related manager). -/
def entMatch (entity : Nat) (sch : Schema) (r : AttrRow) : Bool :=
  decide (r.entity_id = entity) && decide (r.schema = sch)

/-- The full lookup dict of `_save_single_attr`:
`dict(get_entity_lookups(entity), schema=schema, **extra)` where `extra`
is either empty or `{'choice': c}`. -/
def rowMatch (entity : Nat) (sch : Schema) (choiceF : Option Scalar) (r : AttrRow) : Bool :=
  entMatch entity sch r &&
    (match choiceF with
     | none => true
     | some c => decide (r.choice = c))

/-- A fresh `self.attrs.model(**lookups)` instance: entity, schema and
(when present in `extra`) choice come from the lookups; every value
column has its default `None`. -/
def freshRow (entity : Nat) (sch : Schema) (choiceF : Option Scalar) : AttrRow :=
  { entity_id := entity, schema := sch, choice := choiceF.getD .sNone,
    value_text := .atom .sNone, value_int := .atom .sNone,
    value_date := .atom .sNone, value_bool := .atom .sNone,
    phantom := .atom .sNone }

/-- The write half of `_save_single_attr`, after the row has been fetched
or freshly constructed: `if create_nulls or value != attr.value:
attr.value = value; setattr for extra; attr.save()`.  The boolean `or`
short-circuits, so `attr.value` (which can raise for slot-less datatypes)
is only read when `create_nulls` is false.  Returns the new table and
whether `attr.save()` (a storage write) was executed. -/
def saveStep (store : List AttrRow) (entity : Nat) (sch : Schema) (value : Value)
    (create_nulls : Bool) (extraChoice : Option Scalar) (attr : AttrRow) (isNew : Bool) :
    Except PyErr (List AttrRow × Bool) :=
  let cmp : Except PyErr Bool :=
    if create_nulls then .ok true
    else (attr.getValue).map (fun av => decide (value ≠ av))
  match cmp with
  | .error e => .error e
  | .ok true =>
    let attr1 := attr.setValue value
    let attr2 := match extraChoice with
      | none => attr1
      | some c => { attr1 with choice := c }
    if isNew then .ok (store ++ [attr2], true)
    else .ok (store.map (fun r => if rowMatch entity sch extraChoice r then attr2 else r), true)
  | .ok false => .ok (store, false)

/-- `BaseSchema._save_single_attr(entity, value, schema, create_nulls,
extra)`.  The callers in `src/` always pass `schema or self = self`, so
the schema argument is the owning schema.  `self.attrs.get(**lookups)`
returns the unique matching row, raises `DoesNotExist` (caught: a fresh
row is built) when there is none, and raises `MultipleObjectsReturned`
(uncaught) when there are several. -/
def save_single_attr (store : List AttrRow) (entity : Nat) (schema : Schema)
    (value : Value) (create_nulls : Bool) (extraChoice : Option Scalar) :
    Except PyErr (List AttrRow × Bool) :=
  match store.filter (rowMatch entity schema extraChoice) with
  | [] => saveStep store entity schema value create_nulls extraChoice
      (freshRow entity schema extraChoice) true
  | [attr] => saveStep store entity schema value create_nulls extraChoice attr false
  | _ => .error .multipleObjectsReturned

/-- The normalisation of the incoming multi-choice value in
`_save_m2m_attr`: `if not hasattr(value, '__iter__'): value = [value]`
(in Python 2 only lists/tuples are iterable here; strings and `None` get
wrapped). -/
def m2mSelections (value : Value) : List Scalar :=
  match value with
  | .seq xs => xs
  | .atom a => [a]

/-- `BaseSchema._save_m2m_attr(entity, value)`: delete every attribute
row for this (entity, schema) pair (`self.get_attrs(entity).delete()`),
then for each selection run `_save_single_attr(entity, schema=self,
create_nulls=True, extra={'choice': choice})` (the value argument keeps
its default `None`). -/
def save_m2m_attr (store : List AttrRow) (entity : Nat) (schema : Schema)
    (value : Value) : Except PyErr (List AttrRow) :=
  let store1 := store.filter (fun r => !entMatch entity schema r)
  (m2mSelections value).foldlM
    (fun acc c =>
      (save_single_attr acc entity schema (.atom .sNone) true (some c)).map Prod.fst)
    store1

/-- `BaseSchema.save_attr(entity, value)`: dispatch to the multi-choice
path for datatype `many`, otherwise to the scalar path (with the default
`create_nulls=False` and empty `extra`). -/
def save_attr (store : List AttrRow) (entity : Nat) (schema : Schema)
    (value : Value) : Except PyErr (List AttrRow) :=
  if schema.datatype = .many then save_m2m_attr store entity schema value
  else (save_single_attr store entity schema value false none).map Prod.fst

/-- The canonical attribute row written by the multi-choice save path for
one selected choice. -/
def canonRow (entity : Nat) (sch : Schema) (c : Scalar) : AttrRow :=
  { entity_id := entity, schema := sch, choice := c,
    value_text := .atom .sNone, value_int := .atom .sNone,
    value_date := .atom .sNone, value_bool := .atom .sNone,
    phantom := .atom .sNone }

/-- Python's `dict((s.name, s) for s in schemata)[name]`: with duplicate
names the later entry wins, hence the last matching schema. -/
def dictLookup (schemata : List Schema) (name : String) : Option Schema :=
  (schemata.filter (fun s => decide (s.name = name))).getLast?

/-- The key list of `dict((s.name, s) for s in schemata)` (the key set
without duplicates; CPython 2 iterates dict keys in an unspecified order,
so only the key set is meaningful). -/
def dictKeys (schemata : List Schema) : List String :=
  (schemata.map (fun s => s.name)).dedup

/-- `name.startswith('_')` from `BaseEntity.__getattr__`. -/
def startsUnderscore (s : String) : Bool :=
  match s.toList with
  | [] => false
  | c :: _ => c == '_'

/-- `[a.value for a in attrs if a.value]` for a multi-choice schema:
`a.value` is `a.choice`, kept when truthy. -/
def collectMany (attrs : List AttrRow) : List Scalar :=
  (attrs.map (fun a => a.choice)).filter Scalar.truthy

/-- `BaseEntity.__getattr__(name)` over an entity whose applicable schema
list (`get_schemata()`) is `schemata` and whose attribute table is
`store`: names starting with `_` and names matching no schema raise
`AttributeError('%s does not have attribute named "%s".' % (object_name,
name))`; a schema name resolves through `schema.get_attrs(self)` to the
list of truthy choices (datatype `many`) or `attrs[0].value if attrs
else None`. -/
def getattr_dyn (objectName : String) (schemata : List Schema) (store : List AttrRow)
    (entity : Nat) (name : String) : Except PyErr Value :=
  if startsUnderscore name then .error (.attributeError objectName name)
  else
    match dictLookup schemata name with
    | some schema =>
      let attrs := store.filter (entMatch entity schema)
      if schema.datatype = .many then .ok (.seq (collectMany attrs))
      else
        match attrs with
        | [] => .ok (.atom .sNone)
        | a :: _ => a.getValue
    | none => .error (.attributeError objectName name)

/-- What `get_schemata_for_model` produces: either a real schema queryset
(an overriding subclass) or — for the base implementation — a
`NotImplementedError` instance that was built and returned. -/
inductive SchemataSource
  | queryset (schemata : List Schema)
  | notImplementedErrorInstance (msg : String)
deriving DecidableEq, Repr

/-- `BaseEntity.get_schemata_for_model` as written in `src/eav/models.py`
lines 212-216: it constructs a `NotImplementedError` and `return`s it
(there is no `raise`). -/
def base_get_schemata_for_model : SchemataSource :=
  .notImplementedErrorInstance
    ("BaseEntity subclasses must define method \"get_schemata_for_model\" " ++
     "which returns a QuerySet for a BaseSchema subclass.")

/-- Calling `.select_related()` on the object returned by
`get_schemata_for_model`: a queryset supports it; a `NotImplementedError`
instance has no such attribute, so the call raises `AttributeError`. -/
def select_related : SchemataSource → Except PyErr (List Schema)
  | .queryset s => .ok s
  | .notImplementedErrorInstance _ =>
      .error (.attributeError "NotImplementedError" "select_related")

/-- `BaseEntity.get_schemata()` on a first use (empty cache) for a class
whose `get_schemata_for_model` is `source`:
`self.get_schemata_for_model().select_related()` (the per-instance hook
`get_schemata_for_instance` is the identity by default). -/
def get_schemata (source : SchemataSource) : Except PyErr (List Schema) :=
  select_related source

/-- `get_schemata()` for a concrete entity kind that does not override
`get_schemata_for_model` (so `source` is the base implementation). -/
def base_get_schemata : Except PyErr (List Schema) :=
  get_schemata base_get_schemata_for_model

/-- A related model reachable through a relational field of the host
model (`getattr(self.model, name).related.model`): whether it defines
`get_schemata_for_model`, and if so which schemata that returns. -/
structure RelatedModel where
  hasGetSchemata : Bool
  schemata : List Schema
deriving DecidableEq, Repr

/-- The host model metadata consulted by `BaseEntityManager`:
`_meta.get_all_field_names()`, `_meta.pk.name`, the relational fields
(those for which `getattr(model, name).related.model` exists, an
association list by field name) and `get_schemata_for_model()`. -/
structure EntityModel where
  fields : List String
  pkName : String
  related : List (String × RelatedModel)
  schemata : List Schema
deriving DecidableEq, Repr

/-- `lookup.split('__', 1)` guarded by `'__' in lookup`: the part before
the first `__` and, when the separator occurs, the remainder. -/
def splitOnceChars : List Char → Option (List Char × List Char)
  | '_' :: '_' :: rest => some ([], rest)
  | c :: rest => (splitOnceChars rest).map (fun p => (c :: p.1, p.2))
  | [] => none

/-- `name, sublookup = lookup.split('__', 1) if '__' in lookup else
(lookup, None)`. -/
def splitLookup (s : String) : String × Option String :=
  match splitOnceChars s.toList with
  | none => (s, none)
  | some (a, b) => (⟨a⟩, some ⟨b⟩)

/-- `if name == 'pk': name = self.model._meta.pk.name`. -/
def pkFix (model : EntityModel) (n : String) : String :=
  if n = "pk" then model.pkName else n

/-- One translated predicate value: a schema FK comparison or an ordinary
value. -/
inductive CondV
  | cschema (s : Schema)
  | cval (v : Value)
deriving DecidableEq, Repr

/-- `'__%s' % sublookup if sublookup else ''` (Python truthiness: both
`None` and the empty string are falsy). -/
def subSuffix : Option String → String
  | none => ""
  | some s => if s.isEmpty then "" else "__" ++ s

/-- `BaseEntityManager._filter_by_simple_schema`: the `lookup` parameter
of the source is unused; the value key is
`'attrs__value_%s' % schema.datatype` with the sublookup appended when
one was given. -/
def filter_by_simple_schema (sublookup : Option String) (value : Value)
    (schema : Schema) : List (String × CondV) :=
  let value_lookup := "attrs__value_" ++ schema.datatype.pyName ++ subSuffix sublookup
  [("attrs__schema", .cschema schema), (value_lookup, .cval value)]

/-- `_, _ = value`: Python 2 tuple unpacking.  Lists/tuples of length 2
unpack; other lengths raise `ValueError`; a 2-character string unpacks
into its characters; non-sequences raise `TypeError`. -/
def unpack2 (value : Value) : Except PyErr (Scalar × Scalar) :=
  match value with
  | .seq [a, b] => .ok (a, b)
  | .seq _ => .error (.valueError
      "Range schema value must be a tuple of min and max values; one of them may be None.")
  | .atom (.sStr s) =>
    match s.toList with
    | [c1, c2] => .ok (.sStr ⟨[c1]⟩, .sStr ⟨[c2]⟩)
    | _ => .error (.valueError
        "Range schema value must be a tuple of min and max values; one of them may be None.")
  | .atom _ => .error (.typeError "Expected a two-tuple")

/-- `BaseEntityManager._filter_by_range_schema`: the sublookup defaults
to `'overlaps'` (`RANGE_INTERSECTION_LOOKUP`) and must equal it; the
value is unpacked into (min, max); `zip` pairs
`attrs__value_range_max__gte` with min and `attrs__value_range_min__lte`
with max, keeping only the non-`None` sides; `attrs__schema` is always
added. -/
def filter_by_range_schema (sublookup : Option String) (value : Value)
    (schema : Schema) : Except PyErr (List (String × CondV)) :=
  let sub := match sublookup with
    | none => "overlaps"
    | some s => if s.isEmpty then "overlaps" else s
  if sub ≠ "overlaps" then
    .error (.valueError "Range schema only supports lookup \"overlaps\".")
  else
    match unpack2 value with
    | .error e => .error e
    | .ok (mn, mx) =>
      let value_lookups : List (String × Scalar) :=
        [("attrs__value_range_max__gte", mn), ("attrs__value_range_min__lte", mx)]
      let conditions := value_lookups.filter (fun kv => !(kv.2 == Scalar.sNone))
      .ok (conditions.map (fun kv => (kv.1, CondV.cval (.atom kv.2))) ++
           [("attrs__schema", CondV.cschema schema)])

/-- `BaseEntityManager._filter_by_choice_schema`: re-resolves the lookup
name in the (possibly related) model's schema dict (`KeyError` becomes
`ValueError`), then builds `{attrs__schema: schema,
attrs__choice[__sublookup]: value}`. -/
def filter_by_choice_schema (lookupName : String) (sublookup : Option String)
    (value : Value) (schemataCtx : List Schema) : Except PyErr (List (String × CondV)) :=
  match dictLookup schemataCtx lookupName with
  | none => .error (.valueError ("Could not find schema for lookup \"" ++ lookupName ++ "\""))
  | some schema =>
    .ok [("attrs__schema", .cschema schema),
         ("attrs__choice" ++ subSuffix sublookup, .cval value)]

/-- The datatype dispatch shared by both branches of `_filter_by_lookup`:
`TYPE_ONE`/`TYPE_MANY` go to the choice translation, `TYPE_RANGE` to the
range translation, everything else to the simple translation (whose
`lookup` argument the source ignores). -/
def dispatchSchema (nameArg : String) (sublookup : Option String) (value : Value)
    (schema : Schema) (schemataCtx : List Schema) : Except PyErr (List (String × CondV)) :=
  match schema.datatype with
  | .one => filter_by_choice_schema nameArg sublookup value schemataCtx
  | .many => filter_by_choice_schema nameArg sublookup value schemataCtx
  | .range => filter_by_range_schema sublookup value schema
  | _ => .ok (filter_by_simple_schema sublookup value schema)

/-- `BaseEntityManager._filter_by_lookup(qs, lookup, value)`.  Field
names win over schema names; a relational field whose target defines
`get_schemata_for_model` triggers the sublookup inspection, where
`'__' in sublookup` with `sublookup = None` raises `TypeError`; a name
matching neither a field nor a schema raises `NameError` listing the
available fields and schema names. -/
def filter_by_lookup (model : EntityModel) (lookup : String) (value : Value) :
    Except PyErr (List (String × CondV)) :=
  let parts := splitLookup lookup
  let name := pkFix model parts.1
  let sublookup := parts.2
  if name ∈ model.fields then
    match model.related.lookup name with
    | none => .ok [(lookup, .cval value)]
    | some rm =>
      if rm.hasGetSchemata then
        match sublookup with
        | none => .error (.typeError "argument of type 'NoneType' is not iterable")
        | some sub =>
          let subparts := splitLookup sub
          match dictLookup rm.schemata subparts.1 with
          | some schema =>
            match dispatchSchema subparts.1 subparts.2 value schema rm.schemata with
            | .error e => .error e
            | .ok d => .ok (d.map (fun kv => (name ++ "__" ++ kv.1, kv.2)))
          | none => .ok [(lookup, .cval value)]
      else .ok [(lookup, .cval value)]
  else
    match dictLookup model.schemata name with
    | some schema => dispatchSchema name sublookup value schema model.schemata
    | none => .error (.nameError name model.fields (dictKeys model.schemata))

/-- Semantics of one generated range predicate against a stored attribute
row with schema `sch` and range `[xmin, xmax]` (modelled from the spec:
the `value_range_min`/`value_range_max` columns are the implied storage
of the range datatype): `attrs__value_range_max__gte: v` holds when
`xmax ≥ v`, `attrs__value_range_min__lte: v` when `xmin ≤ v`,
`attrs__schema: s` when `s` is the row's schema. -/
def rangeCondHolds (sch : Schema) (xmin xmax : Int) : String × CondV → Bool
  | ("attrs__schema", .cschema s) => decide (s = sch)
  | ("attrs__value_range_max__gte", .cval (.atom (.sInt v))) => decide (v ≤ xmax)
  | ("attrs__value_range_min__lte", .cval (.atom (.sInt v))) => decide (xmin ≤ v)
  | _ => false

/-- Whether a stored range attribute (schema `sch`, range
`[xmin, xmax]`) satisfies every generated predicate of a translated
lookup. -/
def rangeRowMatches (sch : Schema) (xmin xmax : Int)
    (conds : List (String × CondV)) : Bool :=
  conds.all (rangeCondHolds sch xmin xmax)

/-- `BaseEntityManager.exclude(**kw)`: each translated lookup is fed to a
separate `qs.exclude(**lookups)` call, i.e. the queryset is intersected
with the complement of each lookup's predicate individually.  Querysets
are membership predicates over an entity type `E`; each element of `ps`
is the satisfaction predicate of one translated keyword lookup. -/
def exclude_fold {E : Type} (qs : E → Bool) : List (E → Bool) → E → Bool
  | [] => qs
  | p :: ps => exclude_fold (fun x => qs x && !p x) ps

/-- `BaseEntityManager.filter(**kw)`: each translated lookup is fed to a
separate `qs.filter(**lookups)` call. -/
def filter_fold {E : Type} (qs : E → Bool) : List (E → Bool) → E → Bool
  | [] => qs
  | p :: ps => filter_fold (fun x => qs x && p x) ps

/-- The other reading of exclude that the spec rules out: complement of
the conjunction of all the lookups. -/
def negConjExclude {E : Type} (qs : E → Bool) (ps : List (E → Bool)) : E → Bool :=
  fun x => qs x && !(ps.all (fun p => p x))

/-- Whether a save-path result performed a storage write
(`attr.save()`). -/
def performedWrite (r : Except PyErr (List AttrRow × Bool)) : Bool :=
  match r with
  | .ok (_, b) => b
  | .error _ => false

/-- Whether a `get_schemata` outcome is a raised `NotImplementedError`. -/
def raisedNotImplemented (r : Except PyErr (List Schema)) : Bool :=
  match r with
  | .error (.notImplementedError _) => true
  | _ => false

/-- Whether a `get_schemata` outcome returned normally. -/
def returnedOk (r : Except PyErr (List Schema)) : Bool :=
  match r with
  | .ok _ => true
  | .error _ => false

/-- Evaluates a translated filter lookup against a stored range attribute
with schema `sch` and range `[xmin, xmax]`; a translation error counts as
no match. -/
def translatedOverlapMatches (model : EntityModel) (lookup : String) (value : Value)
    (sch : Schema) (xmin xmax : Int) : Bool :=
  match filter_by_lookup model lookup value with
  | .ok conds => rangeRowMatches sch xmin xmax conds
  | .error _ => false

end EavDjango

namespace EavDjango

/-- C9: for every member name beginning with an underscore, the dynamic
read path (`BaseEntity.__getattr__`) raises `AttributeError` whatever the
schema set and attribute table are — even if a schema with that exact
name exists — so internal accesses to cache members such as
`_schemata_cache` can never recurse into dynamic attribute resolution. -/
theorem C9_underscore_names_short_circuit
    (objectName name : String) (h : startsUnderscore name = true) :
    ∀ (schemata : List Schema) (store : List AttrRow) (entity : Nat),
      getattr_dyn objectName schemata store entity name =
        .error (.attributeError objectName name) := by
  intro schemata store entity
  simp [getattr_dyn, h]

/-- Witness for C9 at the concrete member name `_schemata_cache`, with a
schema of that exact name present. -/
theorem C9_witness :
    getattr_dyn "Fruit" [⟨"_schemata_cache", Datatype.text⟩] [] 1 "_schemata_cache" =
      .error (.attributeError "Fruit" "_schemata_cache") :=
  C9_underscore_names_short_circuit "Fruit" "_schemata_cache" (by decide) _ _ _

/-- C6 (code bug): `BaseEntity.get_schemata_for_model` returns — instead
of raising — a `NotImplementedError` instance, so the first use of the
schema machinery (`get_schemata()`) fails with `AttributeError` (the
exception instance has no `select_related`), not with the raised
MustOverride-kind error the claim describes. -/
theorem C6_mustoverride_returns_instead_of_raising :
    base_get_schemata = .error (.attributeError "NotImplementedError" "select_related") ∧
    raisedNotImplemented base_get_schemata = false ∧
    returnedOk base_get_schemata = false :=
  ⟨rfl, rfl, rfl⟩

/-- C10: a filter keyword naming a relational field of the host model
whose target supplies `get_schemata_for_model`, given with no sublookup,
makes `_filter_by_lookup` raise `TypeError` (the source evaluates
`'__' in sublookup` with `sublookup = None`); the plain field predicate
is never returned. -/
theorem C10_relation_without_sublookup_typeerror
    (model : EntityModel) (lookup nm : String) (value : Value) (rm : RelatedModel)
    (hsplit : splitLookup lookup = (nm, none))
    (hfield : pkFix model nm ∈ model.fields)
    (hrel : model.related.lookup (pkFix model nm) = some rm)
    (hcap : rm.hasGetSchemata = true) :
    filter_by_lookup model lookup value =
      .error (.typeError "argument of type 'NoneType' is not iterable") ∧
    ∀ conds, filter_by_lookup model lookup value ≠ .ok conds := by
  have hmain : filter_by_lookup model lookup value =
      .error (.typeError "argument of type 'NoneType' is not iterable") := by
    simp [filter_by_lookup, hsplit, hrel, hcap, hfield]
  refine ⟨hmain, ?_⟩
  intro conds h
  rw [hmain] at h
  exact Except.noConfusion h

/-- Witness for C10: `filter(fruit=7)` on a model whose `fruit` field
points at an entity-capable related model. -/
theorem C10_witness :
    filter_by_lookup ⟨["fruit", "title"], "id",
        [("fruit", ⟨true, [⟨"colour", Datatype.text⟩]⟩)], []⟩ "fruit" (.atom (.sInt 7)) =
      .error (.typeError "argument of type 'NoneType' is not iterable") ∧
    ∀ conds, filter_by_lookup ⟨["fruit", "title"], "id",
        [("fruit", ⟨true, [⟨"colour", Datatype.text⟩]⟩)], []⟩ "fruit" (.atom (.sInt 7)) ≠
      .ok conds :=
  C10_relation_without_sublookup_typeerror
    ⟨["fruit", "title"], "id", [("fruit", ⟨true, [⟨"colour", Datatype.text⟩]⟩)], []⟩
    "fruit" "fruit" (.atom (.sInt 7)) ⟨true, [⟨"colour", Datatype.text⟩]⟩
    (by decide) (by decide) (by decide) rfl

/-- C4: a filter/exclude keyword whose base name matches neither a model
field nor an applicable schema name is rejected with a `NameError` whose
payload carries the available field names and the available schema names
(the `%`-formatted message of the source joins exactly these lists); no
predicate is produced. -/
theorem C4_unknown_attribute_rejected
    (model : EntityModel) (lookup nm : String) (sub : Option String) (value : Value)
    (hsplit : splitLookup lookup = (nm, sub))
    (hnf : pkFix model nm ∉ model.fields)
    (hns : dictLookup model.schemata (pkFix model nm) = none) :
    filter_by_lookup model lookup value =
      .error (.nameError (pkFix model nm) model.fields (dictKeys model.schemata)) ∧
    (∀ s ∈ model.schemata, s.name ∈ dictKeys model.schemata) ∧
    (∀ conds, filter_by_lookup model lookup value ≠ .ok conds) := by
  have hmain : filter_by_lookup model lookup value =
      .error (.nameError (pkFix model nm) model.fields (dictKeys model.schemata)) := by
    simp [filter_by_lookup, hsplit, hns, hnf]
  refine ⟨hmain, ?_, ?_⟩
  · intro s hs
    rw [dictKeys, List.mem_dedup, List.mem_map]
    exact ⟨s, hs, rfl⟩
  · intro conds h
    rw [hmain] at h
    exact Except.noConfusion h

/-- Witness for C4: `filter(bogus_name=1)` against a model with field
`title` and schemata `colour`, `price`. -/
theorem C4_witness :
    filter_by_lookup ⟨["title"], "id", [],
        [⟨"colour", Datatype.text⟩, ⟨"price", Datatype.int⟩]⟩ "bogus_name" (.atom (.sInt 1)) =
      .error (.nameError "bogus_name" ["title"]
        (dictKeys [⟨"colour", Datatype.text⟩, ⟨"price", Datatype.int⟩])) ∧
    (∀ s ∈ [(⟨"colour", Datatype.text⟩ : Schema), ⟨"price", Datatype.int⟩],
      s.name ∈ dictKeys [⟨"colour", Datatype.text⟩, ⟨"price", Datatype.int⟩]) ∧
    (∀ conds, filter_by_lookup ⟨["title"], "id", [],
        [⟨"colour", Datatype.text⟩, ⟨"price", Datatype.int⟩]⟩ "bogus_name" (.atom (.sInt 1)) ≠
      .ok conds) :=
  C4_unknown_attribute_rejected
    ⟨["title"], "id", [], [⟨"colour", Datatype.text⟩, ⟨"price", Datatype.int⟩]⟩
    "bogus_name" "bogus_name" none (.atom (.sInt 1))
    (by decide) (by decide) (by decide)

/-- C7 (spec-modelled datatype dispatch): a lookup whose name matches an
applicable schema of a simple datatype (text, integer, date or boolean)
translates to exactly `{attrs__schema: schema,
attrs__value_<datatype>[__sublookup]: value}`, the sublookup suffix being
appended only when a (non-empty) sublookup was given. -/
theorem C7_simple_schema_translation
    (model : EntityModel) (lookup nm : String) (sub : Option String) (value : Value)
    (sch : Schema)
    (hsplit : splitLookup lookup = (nm, sub))
    (hnf : pkFix model nm ∉ model.fields)
    (hd : dictLookup model.schemata (pkFix model nm) = some sch)
    (hdt : sch.datatype = .text ∨ sch.datatype = .int ∨
           sch.datatype = .date ∨ sch.datatype = .bool) :
    filter_by_lookup model lookup value =
      .ok [("attrs__schema", .cschema sch),
           ("attrs__value_" ++ sch.datatype.pyName ++ subSuffix sub, .cval value)] := by
  have hstep : filter_by_lookup model lookup value =
      dispatchSchema (pkFix model nm) sub value sch model.schemata := by
    simp [filter_by_lookup, hsplit, hnf, hd]
  rw [hstep]
  rcases hdt with h | h | h | h <;>
    simp [dispatchSchema, h, filter_by_simple_schema]

/-- Witness for C7: `filter(colour__iexact="green")` against a text
schema `colour`. -/
theorem C7_witness :
    filter_by_lookup ⟨["title"], "id", [], [⟨"colour", Datatype.text⟩]⟩
        "colour__iexact" (.atom (.sStr "green")) =
      .ok [("attrs__schema", .cschema ⟨"colour", Datatype.text⟩),
           ("attrs__value_" ++ Datatype.pyName Datatype.text ++ subSuffix (some "iexact"),
            .cval (.atom (.sStr "green")))] :=
  C7_simple_schema_translation
    ⟨["title"], "id", [], [⟨"colour", Datatype.text⟩]⟩
    "colour__iexact" "colour" (some "iexact") (.atom (.sStr "green"))
    ⟨"colour", Datatype.text⟩
    (by decide) (by decide) (by decide) (Or.inl rfl)

end EavDjango

namespace EavDjango

/-- Unrolling of `exclude_fold`: the base queryset intersected with the
complement of each translated lookup predicate. -/
theorem exclude_fold_eq {E : Type} (qs : E → Bool) (ps : List (E → Bool)) (x : E) :
    exclude_fold qs ps x = (qs x && ps.all (fun p => !p x)) := by
  induction ps generalizing qs with
  | nil => simp [exclude_fold]
  | cons p ps ih => simp [exclude_fold, ih, Bool.and_assoc]

/-- Unrolling of `filter_fold`: the base queryset intersected with each
translated lookup predicate. -/
theorem filter_fold_eq {E : Type} (qs : E → Bool) (ps : List (E → Bool)) (x : E) :
    filter_fold qs ps x = (qs x && ps.all (fun p => p x)) := by
  induction ps generalizing qs with
  | nil => simp [filter_fold]
  | cons p ps ih => simp [filter_fold, ih, Bool.and_assoc]

/-- C5: `exclude(**lookups)` complements each translated lookup
individually and intersects the complements — for a non-empty lookup set
it coincides with intersecting the single-lookup excludes — and it
differs from the complement of the conjunction of the lookups (concrete
two-lookup queryset where the two disagree); `filter(**lookups)`
intersects the translated lookups. -/
theorem C5_exclude_complements_individually :
    (∀ (E : Type) (qs : E → Bool) (ps : List (E → Bool)) (x : E), ps ≠ [] →
      (exclude_fold qs ps x = true ↔ ∀ p ∈ ps, exclude_fold qs [p] x = true)) ∧
    (exclude_fold (fun _ : Nat => true)
        [fun n => decide (n = 0), fun n => decide (n = 1)] 0 = false ∧
     negConjExclude (fun _ : Nat => true)
        [fun n => decide (n = 0), fun n => decide (n = 1)] 0 = true) ∧
    (∀ (E : Type) (qs : E → Bool) (ps : List (E → Bool)) (x : E),
      filter_fold qs ps x = true ↔ (qs x = true ∧ ∀ p ∈ ps, p x = true)) := by
  have hsingle : ∀ (E : Type) (qs : E → Bool) (p : E → Bool) (x : E),
      exclude_fold qs [p] x = (qs x && !p x) := by
    intro E qs p x
    rw [exclude_fold_eq]
    simp
  refine ⟨?_, ⟨by decide, by decide⟩, ?_⟩
  · intro E qs ps x hne
    rw [exclude_fold_eq]
    constructor
    · intro h p hp
      rw [hsingle]
      simp only [Bool.and_eq_true, List.all_eq_true] at h
      simp [h.1, h.2 p hp]
    · intro h
      obtain ⟨p0, hp0⟩ := List.exists_mem_of_ne_nil ps hne
      have h0 := h p0 hp0
      rw [hsingle] at h0
      simp only [Bool.and_eq_true] at h0
      simp only [Bool.and_eq_true, List.all_eq_true]
      refine ⟨h0.1, fun p hp => ?_⟩
      have hp' := h p hp
      rw [hsingle] at hp'
      simp only [Bool.and_eq_true] at hp'
      exact hp'.2
  · intro E qs ps x
    rw [filter_fold_eq]
    simp [List.all_eq_true]

/-- Witness for C5 at a concrete non-empty lookup list. -/
theorem C5_witness :
    exclude_fold (fun _ : Nat => true) [fun n => decide (n = 0)] 5 = true ↔
      ∀ p ∈ [fun n : Nat => decide (n = 0)],
        exclude_fold (fun _ : Nat => true) [p] 5 = true :=
  C5_exclude_complements_individually.1 Nat (fun _ => true)
    [fun n => decide (n = 0)] 5 (List.cons_ne_nil _ _)

/-- C1 (spec-modelled range columns): a lookup whose name matches an
applicable range-datatype schema, with a pair value `(min, max)`,
translates to a predicate set containing `attrs__value_range_max__gte:
min` iff min is not None, `attrs__value_range_min__lte: max` iff max is
not None, and always `attrs__schema: schema`; against the stored range
`[2, 5]`, `overlap=(3, None)` and `overlap=(0, 3)` match while
`overlap=(6, None)` and `overlap=(-5, -1)` do not. -/
theorem C1_range_overlap_translation :
    (∀ (model : EntityModel) (lookup nm : String) (sub : Option String)
       (mn mx : Scalar) (sch : Schema),
      splitLookup lookup = (nm, sub) →
      pkFix model nm ∉ model.fields →
      dictLookup model.schemata (pkFix model nm) = some sch →
      sch.datatype = .range →
      (sub = none ∨ sub = some "overlaps") →
      ∃ conds, filter_by_lookup model lookup (.seq [mn, mx]) = .ok conds ∧
        (("attrs__value_range_max__gte", CondV.cval (.atom mn)) ∈ conds ↔ mn ≠ .sNone) ∧
        (("attrs__value_range_min__lte", CondV.cval (.atom mx)) ∈ conds ↔ mx ≠ .sNone) ∧
        ("attrs__schema", CondV.cschema sch) ∈ conds) ∧
    (translatedOverlapMatches ⟨["title"], "id", [], [⟨"size", .range⟩]⟩ "size__overlaps"
        (.seq [.sInt 3, .sNone]) ⟨"size", .range⟩ 2 5 = true ∧
     translatedOverlapMatches ⟨["title"], "id", [], [⟨"size", .range⟩]⟩ "size__overlaps"
        (.seq [.sInt 0, .sInt 3]) ⟨"size", .range⟩ 2 5 = true ∧
     translatedOverlapMatches ⟨["title"], "id", [], [⟨"size", .range⟩]⟩ "size__overlaps"
        (.seq [.sInt 6, .sNone]) ⟨"size", .range⟩ 2 5 = false ∧
     translatedOverlapMatches ⟨["title"], "id", [], [⟨"size", .range⟩]⟩ "size__overlaps"
        (.seq [.sInt (-5), .sInt (-1)]) ⟨"size", .range⟩ 2 5 = false) := by
  refine ⟨?_, by decide, by decide, by decide, by decide⟩
  intro model lookup nm sub mn mx sch hsplit hnf hd hdt hsub
  have hstep : filter_by_lookup model lookup (.seq [mn, mx]) =
      dispatchSchema (pkFix model nm) sub (.seq [mn, mx]) sch model.schemata := by
    simp [filter_by_lookup, hsplit, hnf, hd]
  have hrange : dispatchSchema (pkFix model nm) sub (.seq [mn, mx]) sch model.schemata =
      filter_by_range_schema sub (.seq [mn, mx]) sch := by
    simp [dispatchSchema, hdt]
  have hform : filter_by_range_schema sub (.seq [mn, mx]) sch =
      .ok ((([("attrs__value_range_max__gte", mn), ("attrs__value_range_min__lte", mx)] :
          List (String × Scalar)).filter (fun kv => !(kv.2 == Scalar.sNone))).map
            (fun kv => (kv.1, CondV.cval (.atom kv.2))) ++
          [("attrs__schema", CondV.cschema sch)]) := by
    rcases hsub with rfl | rfl <;> simp [filter_by_range_schema, unpack2]
  rw [hstep, hrange, hform]
  refine ⟨_, rfl, ?_, ?_, ?_⟩ <;>
  · by_cases hmn : mn = Scalar.sNone <;> by_cases hmx : mx = Scalar.sNone <;>
      simp [hmn, hmx]

end EavDjango

namespace EavDjango

/-- Witness for C1 at the concrete filter `size__overlaps=(3, None)`. -/
theorem C1_witness :
    ∃ conds, filter_by_lookup ⟨["title"], "id", [], [⟨"size", Datatype.range⟩]⟩
        "size__overlaps" (.seq [.sInt 3, .sNone]) = .ok conds ∧
      (("attrs__value_range_max__gte", CondV.cval (.atom (.sInt 3))) ∈ conds ↔
        Scalar.sInt 3 ≠ .sNone) ∧
      (("attrs__value_range_min__lte", CondV.cval (.atom .sNone)) ∈ conds ↔
        (Scalar.sNone : Scalar) ≠ .sNone) ∧
      ("attrs__schema", CondV.cschema ⟨"size", Datatype.range⟩) ∈ conds :=
  C1_range_overlap_translation.1 ⟨["title"], "id", [], [⟨"size", Datatype.range⟩]⟩
    "size__overlaps" "size" (some "overlaps") (.sInt 3) .sNone ⟨"size", Datatype.range⟩
    (by decide) (by decide) (by decide) rfl (Or.inr rfl)

/-- C3 (amended): writes happen only when the candidate value differs
from the stored one or no row existed; and — the amendment — starting
from a state with no stored row, saving the same *non-None* scalar value
twice performs exactly one write on the first save, none on the second,
and the table is unchanged by the second save. -/
theorem C3_write_suppression :
    (∀ (store : List AttrRow) (e : Nat) (sch : Schema) (v : Value) (res : List AttrRow),
      save_single_attr store e sch v false none = .ok (res, true) →
      (store.filter (rowMatch e sch none) = [] ∨
       ∃ r, store.filter (rowMatch e sch none) = [r] ∧ r.getValue ≠ .ok v)) ∧
    (∀ (store : List AttrRow) (e : Nat) (sch : Schema) (v : Value),
      store.filter (rowMatch e sch none) = [] →
      v ≠ .atom .sNone →
      (sch.datatype = .text ∨ sch.datatype = .int ∨
       sch.datatype = .date ∨ sch.datatype = .bool) →
      ∃ r, save_single_attr store e sch v false none = .ok (store ++ [r], true) ∧
        save_single_attr (store ++ [r]) e sch v false none = .ok (store ++ [r], false)) := by
  have hsame : ∀ (store : List AttrRow) (e : Nat) (sch : Schema) (v : Value)
      (extraChoice : Option Scalar) (attr : AttrRow) (isNew : Bool),
      attr.getValue = .ok v →
      saveStep store e sch v false extraChoice attr isNew = .ok (store, false) := by
    intro store e sch v extraChoice attr isNew hget
    simp [saveStep, hget, Except.map]
  constructor
  · intro store e sch v res h
    rcases hf : store.filter (rowMatch e sch none) with _ | ⟨r, _ | ⟨r2, rest⟩⟩
    · exact Or.inl rfl
    · right
      refine ⟨r, rfl, ?_⟩
      intro hgv
      simp only [save_single_attr, hf] at h
      rw [hsame store e sch v none r false hgv] at h
      simp at h
    · simp only [save_single_attr, hf] at h
      exact Except.noConfusion h
  · intro store e sch v hf hv hdt
    have hfresh : (freshRow e sch none).getValue = .ok (.atom .sNone) := by
      rcases hdt with h | h | h | h <;> simp [freshRow, AttrRow.getValue, h]
    have hget : ((freshRow e sch none).setValue v).getValue = .ok v := by
      rcases hdt with h | h | h | h <;>
        simp [freshRow, AttrRow.setValue, AttrRow.getValue, h]
    have hrm : rowMatch e sch none ((freshRow e sch none).setValue v) = true := by
      rcases hdt with h | h | h | h <;>
        simp [freshRow, AttrRow.setValue, rowMatch, entMatch, h]
    refine ⟨(freshRow e sch none).setValue v, ?_, ?_⟩
    · simp only [save_single_attr, hf]
      simp [saveStep, hfresh, hv, Except.map]
    · have hfilter : (store ++ [(freshRow e sch none).setValue v]).filter
          (rowMatch e sch none) = [(freshRow e sch none).setValue v] := by
        rw [List.filter_append, hf]
        simp [hrm]
      simp only [save_single_attr, hfilter]
      simp [saveStep, hget, Except.map]

/-- Witness for C3 (amended) at the concrete value 10 on an `int`
schema, starting from an empty attribute table. -/
theorem C3_witness :
    ∃ r, save_single_attr [] 1 ⟨"price", Datatype.int⟩ (.atom (.sInt 10)) false none =
        .ok ([] ++ [r], true) ∧
      save_single_attr ([] ++ [r]) 1 ⟨"price", Datatype.int⟩ (.atom (.sInt 10)) false none =
        .ok ([] ++ [r], false) :=
  C3_write_suppression.2 [] 1 ⟨"price", Datatype.int⟩ (.atom (.sInt 10))
    rfl (by decide) (Or.inr (Or.inl rfl))

/-- C3 counterexample: saving the scalar value `None` (with no stored
row) performs zero storage writes on the first save — the fresh row's
default slot value is already `None`, so `value != attr.value` is false —
whereas the claim, quantified over every value, predicts exactly one
write on the first save. -/
theorem C3_counterexample :
    performedWrite (save_single_attr [] 1 ⟨"price", Datatype.int⟩
      (.atom .sNone) false none) = false ∧
    save_single_attr [] 1 ⟨"price", Datatype.int⟩ (.atom .sNone) false none =
      .ok ([], false) :=
  ⟨rfl, rfl⟩

/-- C8: dynamic attribute read.  A non-underscore member name matching an
applicable schema resolves to the list of truthy selected choices for a
multi-choice schema, and otherwise to the first stored row's value — a
real value, never an error, for the simple datatypes — or `None` when no
row exists; a name matching no schema raises `AttributeError` carrying
the record type name and the attribute name. -/
theorem C8_dynamic_attribute_read :
    (∀ (objectName name : String) (schemata : List Schema) (store : List AttrRow)
       (e : Nat) (sch : Schema),
      startsUnderscore name = false →
      dictLookup schemata name = some sch →
      sch.datatype = .many →
      getattr_dyn objectName schemata store e name =
        .ok (.seq (collectMany (store.filter (entMatch e sch))))) ∧
    (∀ (objectName name : String) (schemata : List Schema) (store : List AttrRow)
       (e : Nat) (sch : Schema),
      startsUnderscore name = false →
      dictLookup schemata name = some sch →
      (sch.datatype = .text ∨ sch.datatype = .int ∨
       sch.datatype = .date ∨ sch.datatype = .bool) →
      (store.filter (entMatch e sch) = [] →
        getattr_dyn objectName schemata store e name = .ok (.atom .sNone)) ∧
      (∀ a rest, store.filter (entMatch e sch) = a :: rest →
        getattr_dyn objectName schemata store e name = a.getValue ∧
        ∃ v, a.getValue = .ok v)) ∧
    (∀ (objectName name : String) (schemata : List Schema) (store : List AttrRow)
       (e : Nat),
      startsUnderscore name = false →
      dictLookup schemata name = none →
      getattr_dyn objectName schemata store e name =
        .error (.attributeError objectName name)) := by
  refine ⟨?_, ?_, ?_⟩
  · intro objectName name schemata store e sch hu hd hm
    simp [getattr_dyn, hu, hd, hm]
  · intro objectName name schemata store e sch hu hd hdt
    have hnm : ¬ sch.datatype = .many := by
      rcases hdt with h | h | h | h <;> simp [h]
    constructor
    · intro hfilt
      simp [getattr_dyn, hu, hd, hnm, hfilt]
    · intro a rest hfilt
      have ha : a ∈ store.filter (entMatch e sch) := by
        rw [hfilt]
        exact List.mem_cons_self a rest
      have hsch : a.schema = sch := by
        have := (List.mem_filter.mp ha).2
        simp [entMatch] at this
        exact this.2
      constructor
      · simp [getattr_dyn, hu, hd, hnm, hfilt]
      · rcases hdt with h | h | h | h
        · exact ⟨a.value_text, by simp [AttrRow.getValue, hsch, h]⟩
        · exact ⟨a.value_int, by simp [AttrRow.getValue, hsch, h]⟩
        · exact ⟨a.value_date, by simp [AttrRow.getValue, hsch, h]⟩
        · exact ⟨a.value_bool, by simp [AttrRow.getValue, hsch, h]⟩
  · intro objectName name schemata store e hu hd
    simp [getattr_dyn, hu, hd]

/-- Witness for C8 at a concrete multi-choice read. -/
theorem C8_witness :
    getattr_dyn "Fruit" [⟨"colour", Datatype.many⟩]
        [canonRow 1 ⟨"colour", Datatype.many⟩ (.sStr "green")] 1 "colour" =
      .ok (.seq (collectMany
        (([canonRow 1 ⟨"colour", Datatype.many⟩ (.sStr "green")]).filter
          (entMatch 1 ⟨"colour", Datatype.many⟩)))) :=
  C8_dynamic_attribute_read.1 "Fruit" "colour" [⟨"colour", Datatype.many⟩]
    [canonRow 1 ⟨"colour", Datatype.many⟩ (.sStr "green")] 1 ⟨"colour", Datatype.many⟩
    (by decide) (by decide) rfl

end EavDjango

namespace EavDjango

/-- Writing `None` into the active slot of a canonical multi-choice row
leaves it unchanged (every slot already holds `None`). -/
theorem canonRow_setValue (e : Nat) (sch : Schema) (c : Scalar) :
    (canonRow e sch c).setValue (.atom .sNone) = canonRow e sch c := by
  cases h : sch.datatype <;> simp [AttrRow.setValue, canonRow, h]

/-- Re-assigning the `choice` attribute from `extra` leaves a canonical
row unchanged. -/
theorem canonRow_choice_update (e : Nat) (sch : Schema) (c : Scalar) :
    { (canonRow e sch c).setValue (.atom .sNone) with choice := c } = canonRow e sch c := by
  rw [canonRow_setValue]
  simp [canonRow]

/-- A canonical row matches its own entity/schema lookup. -/
theorem entMatch_canonRow (e : Nat) (sch : Schema) (c : Scalar) :
    entMatch e sch (canonRow e sch c) = true := by
  simp [entMatch, canonRow]

/-- The fresh row constructed by the multi-choice save path is the
canonical row of its choice. -/
theorem freshRow_eq_canonRow (e : Nat) (sch : Schema) (c : Scalar) :
    freshRow e sch (some c) = canonRow e sch c := rfl

/-- Filtering by the full save lookups (entity, schema and choice)
factors through filtering by entity/schema first. -/
theorem filter_rowMatch_split (e : Nat) (sch : Schema) (c : Scalar) (l : List AttrRow) :
    l.filter (rowMatch e sch (some c)) =
      (l.filter (entMatch e sch)).filter (fun r => decide (r.choice = c)) := by
  rw [List.filter_filter]
  apply List.filter_congr
  intro r _
  simp [rowMatch, Bool.and_comm]

/-- Filtering a list of canonical rows by choice is filtering the choice
list itself. -/
theorem canon_map_filter_choice (e : Nat) (sch : Schema) (c : Scalar) (cs : List Scalar) :
    (cs.map (canonRow e sch)).filter (fun r => decide (r.choice = c)) =
      (cs.filter (fun x => decide (x = c))).map (canonRow e sch) := by
  induction cs with
  | nil => rfl
  | cons x xs ih => by_cases hx : x = c <;> simp [List.filter_cons, canonRow, hx, ih]

/-- On a duplicate-free list, filtering by equality with `c` yields `[c]`
or nothing. -/
theorem nodup_filter_eq (cs : List Scalar) (c : Scalar) (h : cs.Nodup) :
    cs.filter (fun x => decide (x = c)) = if c ∈ cs then [c] else [] := by
  induction cs with
  | nil => simp
  | cons x xs ih =>
    rw [List.nodup_cons] at h
    by_cases hx : x = c
    · subst hx
      rw [List.filter_cons_of_pos (by simp)]
      rw [ih h.2, if_neg h.1, if_pos (List.mem_cons_self x xs)]
    · rw [List.filter_cons_of_neg (by simp [hx])]
      rw [ih h.2]
      by_cases hc : c ∈ xs
      · rw [if_pos hc, if_pos (List.mem_cons_of_mem x hc)]
      · have hcc : c ∉ x :: xs := by
          intro hmem
          rcases List.mem_cons.mp hmem with h1 | h2
          · exact hx h1.symm
          · exact hc h2
        rw [if_neg hc, if_neg hcc]

/-- Replacing every matching element by a value all matches already equal
is the identity. -/
theorem map_ite_self (l : List AttrRow) (p : AttrRow → Bool) (b : AttrRow)
    (h : ∀ x ∈ l, p x = true → x = b) :
    l.map (fun x => if p x then b else x) = l := by
  induction l with
  | nil => rfl
  | cons x xs ih =>
    simp only [List.map_cons]
    have hx : (if p x then b else x) = x := by
      by_cases hp : p x
      · rw [if_pos hp, (h x (List.mem_cons_self x xs) hp)]
      · rw [if_neg hp]
    rw [hx, ih (fun y hy hp => h y (List.mem_cons_of_mem x hy) hp)]

/-- Re-filtering the rows that survived a negated filter yields
nothing (the deletion step of `_save_m2m_attr` really empties the
(entity, schema) row set). -/
theorem filter_not_filter (l : List AttrRow) (p : AttrRow → Bool) :
    (l.filter (fun r => !p r)).filter p = [] := by
  induction l with
  | nil => rfl
  | cons x xs ih =>
    by_cases hp : p x <;> simp [List.filter_cons, hp, ih]

/-- One step of the multi-choice save fold: with the (entity, schema)
rows of the table being the canonical rows of a duplicate-free choice
list, `_save_single_attr(..., create_nulls=True, extra={'choice': c})`
succeeds, and afterwards the (entity, schema) rows are the canonical
rows of the choice list with `c` added (if not already present). -/
theorem m2m_step (e : Nat) (sch : Schema) (c : Scalar) (acc : List AttrRow)
    (cs : List Scalar) (hnd : cs.Nodup)
    (hacc : acc.filter (entMatch e sch) = cs.map (canonRow e sch)) :
    ∃ acc',
      (save_single_attr acc e sch (.atom .sNone) true (some c)).map Prod.fst = .ok acc' ∧
      acc'.filter (entMatch e sch) =
        (if c ∈ cs then cs else cs ++ [c]).map (canonRow e sch) ∧
      (if c ∈ cs then cs else cs ++ [c]).Nodup := by
  have hfound : acc.filter (rowMatch e sch (some c)) =
      if c ∈ cs then [canonRow e sch c] else [] := by
    rw [filter_rowMatch_split, hacc, canon_map_filter_choice, nodup_filter_eq cs c hnd]
    by_cases hc : c ∈ cs <;> simp [hc]
  by_cases hc : c ∈ cs
  · rw [if_pos hc] at hfound
    have hmap : acc.map (fun r => if rowMatch e sch (some c) r then
        canonRow e sch c else r) = acc := by
      apply map_ite_self
      intro x hx hpx
      have hmem : x ∈ acc.filter (rowMatch e sch (some c)) :=
        List.mem_filter.mpr ⟨hx, hpx⟩
      rw [hfound] at hmem
      simpa using hmem
    refine ⟨acc, ?_, by rw [if_pos hc]; exact hacc, by rw [if_pos hc]; exact hnd⟩
    simp only [save_single_attr, hfound]
    simp [saveStep, canonRow_choice_update, hmap, Except.map]
  · rw [if_neg hc] at hfound
    refine ⟨acc ++ [canonRow e sch c], ?_, ?_, ?_⟩
    · simp only [save_single_attr, hfound]
      simp [saveStep, freshRow_eq_canonRow, canonRow_choice_update, Except.map]
    · rw [if_neg hc, List.filter_append, hacc, List.map_append]
      simp [entMatch_canonRow]
    · rw [if_neg hc]
      simp [List.nodup_append, hnd, hc]

/-- The whole multi-choice save fold, by induction over the selection
list: starting from a table whose (entity, schema) rows are the
canonical rows of a duplicate-free list `cs`, the fold succeeds and ends
with the canonical rows of exactly `cs` extended by the selections. -/
theorem m2m_fold (e : Nat) (sch : Schema) (sel : List Scalar) :
    ∀ (acc : List AttrRow) (cs : List Scalar), cs.Nodup →
      acc.filter (entMatch e sch) = cs.map (canonRow e sch) →
      ∃ (store' : List AttrRow) (cs' : List Scalar),
        sel.foldlM (fun a c =>
          (save_single_attr a e sch (.atom .sNone) true (some c)).map Prod.fst) acc =
          .ok store' ∧
        cs'.Nodup ∧
        store'.filter (entMatch e sch) = cs'.map (canonRow e sch) ∧
        (∀ x, x ∈ cs' ↔ x ∈ cs ∨ x ∈ sel) := by
  induction sel with
  | nil =>
    intro acc cs hnd hacc
    refine ⟨acc, cs, ?_, hnd, hacc, by simp⟩
    simp [List.foldlM_nil]
    rfl
  | cons c rest ih =>
    intro acc cs hnd hacc
    obtain ⟨acc', hstep, hfilt', hnd'⟩ := m2m_step e sch c acc cs hnd hacc
    obtain ⟨store', cs', hfold, hnd'', hfilt'', hmem⟩ :=
      ih acc' (if c ∈ cs then cs else cs ++ [c]) hnd' hfilt'
    refine ⟨store', cs', ?_, hnd'', hfilt'', ?_⟩
    · rw [List.foldlM_cons]
      simp only [hstep]
      exact hfold
    · intro x
      rw [hmem x]
      by_cases hc : c ∈ cs
      · simp only [if_pos hc, List.mem_cons]
        constructor
        · rintro (hx | hx)
          · exact Or.inl hx
          · exact Or.inr (Or.inr hx)
        · rintro (hx | hx | hx)
          · exact Or.inl hx
          · subst hx
            exact Or.inl hc
          · exact Or.inr hx
      · simp only [if_neg hc, List.mem_append, List.mem_cons, List.mem_singleton]
        tauto

/-- C2: after `save_attr` on a multi-choice schema, the (entity, schema)
rows of the attribute table are exactly the canonical rows of the
incoming selections (a non-iterable value counting as one selection);
concretely, saving `["red", "green"]` and then `["green"]` leaves
exactly the single `"green"` row with no residual `"red"` row. -/
theorem C2_multichoice_set_semantics :
    (∀ (store : List AttrRow) (e : Nat) (sch : Schema) (value : Value),
      sch.datatype = .many →
      ∃ store', save_attr store e sch value = .ok store' ∧
        ∀ r : AttrRow, (r ∈ store' ∧ entMatch e sch r = true) ↔
          ∃ c ∈ m2mSelections value, r = canonRow e sch c) ∧
    ((do
        let s1 ← save_attr [] 1 ⟨"colour", Datatype.many⟩
          (.seq [.sStr "red", .sStr "green"])
        save_attr s1 1 ⟨"colour", Datatype.many⟩ (.seq [.sStr "green"])) =
      Except.ok [canonRow 1 ⟨"colour", Datatype.many⟩ (.sStr "green")]) := by
  constructor
  · intro store e sch value hm
    have hbase : (store.filter (fun r => !entMatch e sch r)).filter (entMatch e sch) =
        ([] : List Scalar).map (canonRow e sch) := by
      simp [filter_not_filter]
    obtain ⟨store', cs', hfold, hnd', hfilt', hmem⟩ :=
      m2m_fold e sch (m2mSelections value)
        (store.filter (fun r => !entMatch e sch r)) [] List.nodup_nil hbase
    refine ⟨store', ?_, ?_⟩
    · simp only [save_attr, hm, if_pos, save_m2m_attr]
      exact hfold
    · intro r
      constructor
      · rintro ⟨hr, hent⟩
        have hmem' : r ∈ store'.filter (entMatch e sch) :=
          List.mem_filter.mpr ⟨hr, hent⟩
        rw [hfilt'] at hmem'
        obtain ⟨c, hc, hcr⟩ := List.mem_map.mp hmem'
        refine ⟨c, ?_, hcr.symm⟩
        have := (hmem c).mp hc
        simpa using this
      · rintro ⟨c, hcsel, rfl⟩
        have hc' : c ∈ cs' := (hmem c).mpr (Or.inr hcsel)
        have hmem' : canonRow e sch c ∈ store'.filter (entMatch e sch) := by
          rw [hfilt']
          exact List.mem_map.mpr ⟨c, hc', rfl⟩
        exact List.mem_filter.mp hmem'
  · decide

/-- Witness for C2 at a concrete single-selection save. -/
theorem C2_witness :
    ∃ store', save_attr [] 1 ⟨"colour", Datatype.many⟩ (.seq [.sStr "green"]) =
        .ok store' ∧
      ∀ r : AttrRow, (r ∈ store' ∧ entMatch 1 ⟨"colour", Datatype.many⟩ r = true) ↔
        ∃ c ∈ m2mSelections (.seq [.sStr "green"]),
          r = canonRow 1 ⟨"colour", Datatype.many⟩ c :=
  C2_multichoice_set_semantics.1 [] 1 ⟨"colour", Datatype.many⟩
    (.seq [.sStr "green"]) rfl

end EavDjango
